import Mathlib

/-!
Shallow embedding of the KubeEdge task-manager Executor engine
(cloud/pkg/taskmanager manager source): per-node status records, the bounded
worker pool, the node-command message builders, the completion handler with
failure-tolerance accounting, stage initialization, the scheduling-loop body
and the per-job timeout watcher, together with theorems checking the
specification's claims against these definitions.
-/

namespace TaskManager

/-- Per-node task status record, after v1alpha1.TaskStatus: node name, FSM
state token, last event, action, time and reason (all strings in the source;
api.State and api.Action are string types). -/
structure TaskStatus where
  nodeName : String
  state : String
  event : String
  action : String
  time : String
  reason : String
deriving DecidableEq, Repr

/-- Zero value of TaskStatus: the Go struct literal with every field empty,
used by the loop's structural-emptiness check. -/
def TaskStatus.empty : TaskStatus := ⟨"", "", "", "", "", ""⟩

/-- Modelled from the spec: the distinguished pre-check state token
(api.TaskChecking; the fsm api package is not part of the provided source, the
engine only compares node.State against this constant). -/
def TaskChecking : String := "Checking"

/-- Modelled from the spec: the distinguished failure state token
(api.TaskFailed; the fsm api package is not part of the provided source). -/
def TaskFailed : String := "Failed"

/-- Modelled from the spec: the Failure action token (api.ActionFailure; the
fsm api package is not part of the provided source). -/
def ActionFailure : String := "Failure"

/-- Modelled from the spec: the Success action token (api.ActionSuccess; the
fsm api package is not part of the provided source). -/
def ActionSuccess : String := "Success"

/-- Modelled from the spec: the literal task tag for upgrade tasks
(util.TaskUpgrade; the util package is not part of the provided source). -/
def TaskUpgrade : String := "upgrade"

/-- Event submitted to the node- or task-level FSM (fsm.Event): type, action
and error message. -/
structure FsmEvent where
  type : String
  action : String
  errorMsg : String
deriving DecidableEq, Repr

/-- Legacy upgrade request body (commontypes.NodeUpgradeJobRequest). -/
structure NodeUpgradeJobRequest where
  upgradeID : String
  historyID : String
  upgradeTool : String
  version : String
  image : String
deriving DecidableEq, Repr

/-- Item carried by a current-format node command: either the opaque task
payload (the executor forwards task.Msg unchanged; for upgrade tasks it is a
NodeUpgradeJobRequest) or the pre-check request enumerating checkItem. -/
inductive TaskItem where
  | payload (msg : NodeUpgradeJobRequest)
  | preCheck (checkItem : List String)
deriving DecidableEq, Repr

/-- Current-format node command body (commontypes.NodeTaskRequest). -/
structure NodeTaskRequest where
  taskID : String
  type : String
  state : String
  item : TaskItem
deriving DecidableEq, Repr

/-- Body of an outbound node-command message. -/
inductive MessageBody where
  | task (req : NodeTaskRequest)
  | upgrade (req : NodeUpgradeJobRequest)
deriving DecidableEq, Repr

/-- Outbound node-command envelope, the observable content of model.Message
after BuildRouter and FillBody: source module, group, resource key, operation
and body. -/
structure Message where
  source : String
  group : String
  resource : String
  operation : String
  body : MessageBody
deriving DecidableEq, Repr

/-- Modelled from the spec: current-format router module name
(modules.TaskManagerModuleName; the modules package is not part of the
provided source). -/
def TaskManagerModuleName : String := "taskmanager"

/-- Modelled from the spec: current-format router module group
(modules.TaskManagerModuleGroup; not part of the provided source). -/
def TaskManagerModuleGroup : String := "taskmanager"

/-- Modelled from the spec: legacy router module name
(modules.NodeUpgradeJobControllerModuleName; not part of the provided
source). -/
def NodeUpgradeJobControllerModuleName : String := "nodeupgradejobcontroller"

/-- Modelled from the spec: legacy router module group
(modules.NodeUpgradeJobControllerModuleGroup; not part of the provided
source). -/
def NodeUpgradeJobControllerModuleGroup : String := "nodeupgradejobcontroller"

/-- Task configuration and external collaborators as one Executor observes
them: the fields of util.TaskMessage read by the scheduling code (type, name,
concurrency, timeout, failure tolerance, check items, payload), the stage
controller operations it invokes (stageCompleted, reportTaskStatus,
getNodeVersion), the fsm.TaskFinish predicate, util.VersionLess, the fresh
uuid drawn for a history message and the resource separator constant
(constants.ResourceSep). The controller, util and fsm implementations are not
part of the provided source, so they stay parameters; float64 failureTolerate
is modelled as a rational. -/
structure Env where
  taskType : String
  taskName : String
  concurrency : Nat
  timeOutSeconds : Nat
  failureTolerate : ℚ
  checkItem : List String
  msg : NodeUpgradeJobRequest
  stageCompleted : String → String → Bool
  taskFinish : String → Bool
  reportTaskStatus : String → FsmEvent → Except String String
  getNodeVersion : String → Except String String
  versionLess : String → String → Except String Bool
  freshHistoryID : String
  resourceSep : String

/-- Resource key of a current-format command (buildTaskResource): the task
type, task id, the literal "node" and the node id joined by the separator. -/
def buildTaskResource (sep task taskID nodeID : String) : String :=
  String.intercalate sep [task, taskID, "node", nodeID]

/-- Resource key of a legacy command (buildUpgradeResource): the literal
upgrade tag, the upgrade id, the literal "node" and the node id joined by the
separator. -/
def buildUpgradeResource (sep upgradeID nodeID : String) : String :=
  String.intercalate sep [TaskUpgrade, upgradeID, "node", nodeID]

/-- Legacy-compatibility message builder (Executor.initHistoryMessage):
ask the controller for the node's version; on error, or when the comparison
against the cutoff errors, or when the version is not strictly below
"v1.16.0", produce nothing; otherwise produce the legacy-format message with
a fresh history id, upgrade tool "keadm" and the payload's version and
image, routed to the legacy module. -/
def initHistoryMessage (env : Env) (node : TaskStatus) : Option Message :=
  let resource := buildUpgradeResource env.resourceSep env.taskName node.nodeName
  match env.getNodeVersion node.nodeName with
  | .error _ => none
  | .ok edgeVersion =>
    match env.versionLess edgeVersion "v1.16.0" with
    | .error _ => none
    | .ok less =>
      if less = false then none
      else
        some
          { source := NodeUpgradeJobControllerModuleName
            group := NodeUpgradeJobControllerModuleGroup
            resource := resource
            operation := TaskUpgrade
            body := .upgrade
              { upgradeID := env.taskName
                historyID := env.freshHistoryID
                upgradeTool := "keadm"
                version := env.msg.version
                image := env.msg.image } }

/-- Node-command builder (Executor.initMessage): for upgrade tasks first try
the legacy path and return its message when it produced one; otherwise emit
the current-format message whose item is the pre-check request when the
node's state is the pre-check state and the task payload otherwise. -/
def initMessage (env : Env) (node : TaskStatus) : Message :=
  match (if env.taskType = TaskUpgrade then initHistoryMessage env node else none) with
  | some msg => msg
  | none =>
    let resource := buildTaskResource env.resourceSep env.taskType env.taskName node.nodeName
    let item := if node.state = TaskChecking then TaskItem.preCheck env.checkItem
                else TaskItem.payload env.msg
    { source := TaskManagerModuleName
      group := TaskManagerModuleGroup
      resource := resource
      operation := TaskUpgrade
      body := .task
        { taskID := env.taskName
          type := env.taskType
          state := node.state
          item := item } }

/-- Association-list lookup for the Go map of in-flight jobs. -/
def jobsLookup : List (String × Nat) → String → Option Nat
  | [], _ => none
  | (k, v) :: rest, name => if k = name then some v else jobsLookup rest name

/-- Association-list insert-or-replace for the Go map of in-flight jobs. -/
def jobsInsert : List (String × Nat) → String → Nat → List (String × Nat)
  | [], name, idx => [(name, idx)]
  | (k, v) :: rest, name, idx =>
      if k = name then (name, idx) :: rest else (k, v) :: jobsInsert rest name idx

/-- Association-list delete for the Go map of in-flight jobs. -/
def jobsErase : List (String × Nat) → String → List (String × Nat)
  | [], _ => []
  | (k, v) :: rest, name => if k = name then rest else (k, v) :: jobsErase rest name

/-- Bounded worker pool (type workers): capacity, the in-flight map from node
name to node index, and the shutting-down flag. -/
structure Workers where
  number : Nat
  jobs : List (String × Nat)
  shuttingDown : Bool
deriving DecidableEq, Repr

/-- Admission (workers.addJob): refuse when shutting down; refuse when the
in-flight count has reached capacity; otherwise record the node as in flight
and build its outbound command via the executor's message builder. -/
def addJob (env : Env) (w : Workers) (node : TaskStatus) (index : Nat) :
    Except String (Workers × Message) :=
  if w.shuttingDown then .error "workers is stopped"
  else if w.number ≤ w.jobs.length then
    .error ("workers are all running, " ++ toString w.jobs.length ++ "/" ++ toString w.number)
  else
    .ok ({ w with jobs := jobsInsert w.jobs node.nodeName index }, initMessage env node)

/-- Completion (workers.endJob): look up the stored index for the node name;
fail when the name is not in flight, otherwise return the index and remove
the entry. -/
def Workers.endJob (w : Workers) (job : String) : Except String (Nat × Workers) :=
  match jobsLookup w.jobs job with
  | none => .error ("end job " ++ job ++ " error, job not exist")
  | some index => .ok (index, { w with jobs := jobsErase w.jobs job })

/-- Failure-accounting state threaded through the completion handler: the
distinct failed node names (the Go set map, kept as a duplicate-free list in
insertion order) and the worker pool. -/
structure DealState where
  failedNodes : List String
  worker : Workers
deriving DecidableEq, Repr

/-- Set insertion for the failed-node set: a name already present is not
added again (Go map assignment to true). -/
def setInsert (s : List String) (x : String) : List String :=
  if x ∈ s then s else s ++ [x]

/-- Error message produced when the failure tolerance threshold is hit,
giving the failed/total ratio. -/
def toleranceErrMsg (failed total : Nat) : String :=
  "the number of failed nodes is " ++ toString failed ++ "/" ++ toString total ++
    ", which exceeds the failure tolerance threshold."

/-- Outcome of one completion-handler call: the updated failure-accounting
state, the task-status event reported to the controller (if any), and the
error returned to the caller (if any). -/
structure DealOutcome where
  state : DealState
  reported : Option FsmEvent
  err : Option String
deriving Repr

/-- Distinct failed node names after the completion handler has recorded one
completing node: the node is inserted when its state is the failure state
(the Go map assignment guarded by node.State == api.TaskFailed). -/
def failedAfter (st : DealState) (node : TaskStatus) : List String :=
  if node.state = TaskFailed then setInsert st.failedNodes node.nodeName
  else st.failedNodes

/-- Completion handler (the dealCompletedNode closure in Executor.start):
record the node in the failed set when its state is the failure state; return
normally while the failed count is strictly below
float64(len(nodes)) * failureTolerate; otherwise mark the pool shutting down,
wait for in-flight jobs to drain, and once drained report task failure with
the failed/total ratio and return that message as an error (wrapping any
report error). nodesLen is len(e.nodes), fixed when the loop starts. -/
def dealCompletedNode (env : Env) (nodesLen : Nat) (st : DealState)
    (node : TaskStatus) : DealOutcome :=
  let failedNodes := failedAfter st node
  let maxFailedNodes : ℚ := (nodesLen : ℚ) * env.failureTolerate
  if (failedNodes.length : ℚ) < maxFailedNodes then
    { state := ⟨failedNodes, st.worker⟩, reported := none, err := none }
  else
    let worker : Workers := { st.worker with shuttingDown := true }
    if 0 < worker.jobs.length then
      { state := ⟨failedNodes, worker⟩, reported := none, err := none }
    else
      let errMsg := toleranceErrMsg failedNodes.length nodesLen
      let ev : FsmEvent := ⟨node.event, node.action, errMsg⟩
      match env.reportTaskStatus env.taskName ev with
      | .error e =>
          { state := ⟨failedNodes, worker⟩, reported := some ev,
            err := some (errMsg ++ ", report status failed, " ++ e) }
      | .ok _ =>
          { state := ⟨failedNodes, worker⟩, reported := some ev, err := some errMsg }

/-- Result of stage initialization: the cursor (next node slot not yet
admitted), the failure-accounting state, the emitted node commands, and the
error propagated from the completion handler (if any). -/
structure InitWorkerResult where
  cursor : Nat
  state : DealState
  msgs : List Message
  err : Option String
deriving Repr

/-- Loop body of Executor.initWorker, mirroring the Go range loop: `i` is the
position of the head node, `lastIndex` the range variable's current value
(returned when the slice is exhausted), and the Bool result is isEndNode.
Nodes already stage-completed go through the completion handler (whose error
aborts the sweep with Go return value 0); other nodes are admitted until an
admission fails. -/
def initWorkerGo (env : Env) (nodesLen : Nat) :
    List TaskStatus → Nat → Nat → DealState → List Message →
    Nat × Bool × DealState × List Message × Option String
  | [], _, lastIndex, st, msgs => (lastIndex, true, st, msgs, none)
  | node :: rest, i, _, st, msgs =>
    if env.stageCompleted env.taskName node.state then
      let r := dealCompletedNode env nodesLen st node
      match r.err with
      | some e => (0, false, r.state, msgs, some e)
      | none => initWorkerGo env nodesLen rest (i + 1) i r.state msgs
    else
      match addJob env st.worker node i with
      | .error _ => (i, false, st, msgs, none)
      | .ok (w, m) => initWorkerGo env nodesLen rest (i + 1) i ⟨st.failedNodes, w⟩ (msgs ++ [m])

/-- Stage initialization (Executor.initWorker): sweep the node slice from
position 0 and return the cursor, incremented past the end only when the
sweep consumed the whole slice without an admission failure. -/
def initWorker (env : Env) (nodesLen : Nat) (nodes : List TaskStatus)
    (st : DealState) : InitWorkerResult :=
  match initWorkerGo env nodesLen nodes 0 0 st [] with
  | (index, isEndNode, st1, msgs, err) =>
      ⟨if isEndNode then index + 1 else index, st1, msgs, err⟩

/-- Stage-boundary report (Executor.completedTaskStage): drive the task FSM
with the completing node's event and the Success action. -/
def completedTaskStage (env : Env) (node : TaskStatus) : Except String String :=
  env.reportTaskStatus env.taskName ⟨node.event, ActionSuccess, ""⟩

/-- State of one Executor's scheduling loop: the node slice, the admission
cursor, the failure-accounting state (failed names and worker pool) and
whether the loop has returned after a terminal task state. -/
structure ExecState where
  nodes : List TaskStatus
  index : Nat
  failedNodes : List String
  worker : Workers
  done : Bool
deriving DecidableEq, Repr

/-- One iteration of the scheduling loop of Executor.start on a status
report: drop nil, structurally empty, not-stage-completed and not-in-flight
reports unchanged; otherwise end the job, write the report into the node
slice, run the completion handler, and either admit the node at the cursor or,
past the end with the pool drained, advance the task FSM and (unless the task
finished) initialize the next stage. Returns the new state and the node
commands emitted during the iteration. -/
def handleStatus (env : Env) (s : ExecState) (report : Option TaskStatus) :
    ExecState × List Message :=
  match report with
  | none => (s, [])
  | some status =>
    if status = TaskStatus.empty then (s, [])
    else if env.stageCompleted env.taskName status.state = false then (s, [])
    else
      match s.worker.endJob status.nodeName with
      | .error _ => (s, [])
      | .ok (endNode, worker) =>
        let nodes := s.nodes.set endNode status
        let r := dealCompletedNode env nodes.length ⟨s.failedNodes, worker⟩ status
        let s1 : ExecState := ⟨nodes, s.index, r.state.failedNodes, r.state.worker, s.done⟩
        match r.err with
        | some _ => (s1, [])
        | none =>
          if nodes.length ≤ s.index then
            if r.state.worker.jobs.length ≠ 0 then (s1, [])
            else
              match completedTaskStage env status with
              | .error _ => (s1, [])
              | .ok state =>
                if env.taskFinish state then ({ s1 with done := true }, [])
                else
                  let r2 := initWorker env nodes.length nodes r.state
                  (⟨nodes, r2.cursor, r2.state.failedNodes, r2.state.worker, s.done⟩, r2.msgs)
          else
            let nextNode := nodes.getD s.index TaskStatus.empty
            match addJob env r.state.worker nextNode s.index with
            | .error _ => (s1, [])
            | .ok (w, m) => (⟨nodes, s.index + 1, r.state.failedNodes, w, s.done⟩, [m])

/-- Timeout watcher (Executor.handelTimeOutJob) over the trace of states it
observes: lastState is nodes[index].state at watcher start; obs i is the
state read at the i-th one-second poll; the watcher polls for
timeoutSeconds polls and reports nothing when some poll sees a changed or
task-terminal state, and otherwise submits one TimeOut Failure event via
reportNodeStatus, carrying the poll library's timeout error text. -/
def handelTimeOutJob (env : Env) (index : Nat) (nodes : List TaskStatus)
    (obs : Nat → String) : Option FsmEvent :=
  let lastState := (nodes.getD index TaskStatus.empty).state
  if (List.range env.timeOutSeconds).any
      (fun i => decide (lastState ≠ obs i) || env.taskFinish (obs i)) then
    none
  else
    some ⟨"TimeOut", ActionFailure,
      "node task execution timeout, timed out waiting for the condition"⟩

/-- Modelled from the spec: normalization of the TaskMessage concurrency
field performed upstream of the provided source (the task ingestion layer;
the data model says a zero concurrency defaults to 1). -/
def effectiveConcurrency (c : Nat) : Nat := if c = 0 then 1 else c

/-- Modelled from the spec: normalization of the TaskMessage timeoutSeconds
field performed upstream of the provided source (the task ingestion layer;
the data model says a zero timeout defaults to 300 seconds). -/
def effectiveTimeoutSeconds (t : Nat) : Nat := if t = 0 then 300 else t

/-- One worker-pool operation: an admission or a completion. -/
inductive PoolOp where
  | add (node : TaskStatus) (index : Nat)
  | fin (name : String)

/-- Run a sequence of pool operations, ignoring operation errors (the pool is
left unchanged when addJob or endJob fails). -/
def runOps (env : Env) (w : Workers) : List PoolOp → Workers
  | [] => w
  | op :: rest =>
      let w1 :=
        match op with
        | .add node i =>
            match addJob env w node i with
            | .ok (w2, _) => w2
            | .error _ => w
        | .fin name =>
            match w.endJob name with
            | .ok (_, w2) => w2
            | .error _ => w
      runOps env w1 rest

/-- Stage initialization written from the specification's words, for
comparison with initWorker: scan nodes from position 0 carrying the running
position; a node already satisfying the stage-completion predicate is routed
through the completion handler and not admitted; every other node is admitted
until an admission fails, at which point the scan stops and the cursor is the
position of that first non-admitted node; when the whole slice is consumed
without an admission failure the cursor equals the number of nodes (the
running position after them all). -/
def initWorkerSpec (env : Env) (nodesLen : Nat) :
    List TaskStatus → Nat → DealState → List Message → InitWorkerResult
  | [], i, st, msgs => ⟨i, st, msgs, none⟩
  | node :: rest, i, st, msgs =>
    if env.stageCompleted env.taskName node.state then
      let r := dealCompletedNode env nodesLen st node
      match r.err with
      | some e => ⟨0, r.state, msgs, some e⟩
      | none => initWorkerSpec env nodesLen rest (i + 1) r.state msgs
    else
      match addJob env st.worker node i with
      | .error _ => ⟨i, st, msgs, none⟩
      | .ok (w, m) => initWorkerSpec env nodesLen rest (i + 1) ⟨st.failedNodes, w⟩ (msgs ++ [m])

/-- Concrete environment used by witnesses: an upgrade task over a small
fleet with tolerance one half and a trivial controller. -/
def envA : Env where
  taskType := "upgrade"
  taskName := "job1"
  concurrency := 2
  timeOutSeconds := 3
  failureTolerate := 1/2
  checkItem := ["cpu"]
  msg := ⟨"", "", "", "v1.17.0", "img"⟩
  stageCompleted := fun _ s => s = "Completed" || s = TaskFailed
  taskFinish := fun s => s = "Successful"
  reportTaskStatus := fun _ _ => Except.ok "Successful"
  getNodeVersion := fun _ => Except.ok "v1.17.0"
  versionLess := fun _ _ => Except.ok false
  freshHistoryID := "hist-1"
  resourceSep := "/"

/-- Concrete pending node used by witnesses. -/
def nodeA : TaskStatus := ⟨"nodeA", "", "", "", "", ""⟩

/-- Concrete failed-node report used by witnesses. -/
def nodeFailedB : TaskStatus := ⟨"nodeB", TaskFailed, "evB", ActionFailure, "", ""⟩

/-- Current-format node command exactly as Executor.initMessage emits it
when the legacy path yields nothing. -/
def currentFormatMessage (env : Env) (node : TaskStatus) : Message :=
  { source := TaskManagerModuleName
    group := TaskManagerModuleGroup
    resource := buildTaskResource env.resourceSep env.taskType env.taskName node.nodeName
    operation := TaskUpgrade
    body := .task
      { taskID := env.taskName
        type := env.taskType
        state := node.state
        item := if node.state = TaskChecking then TaskItem.preCheck env.checkItem
                else TaskItem.payload env.msg } }

/-- Concrete environment whose controller reports a node version below the
legacy cutoff. -/
def envOld : Env where
  taskType := "upgrade"
  taskName := "job2"
  concurrency := 1
  timeOutSeconds := 2
  failureTolerate := 0
  checkItem := []
  msg := ⟨"", "", "", "v1.17.0", "img"⟩
  stageCompleted := fun _ s => s = "Completed"
  taskFinish := fun s => s = "Successful"
  reportTaskStatus := fun _ _ => Except.ok "Successful"
  getNodeVersion := fun _ => Except.ok "v1.15.0"
  versionLess := fun _ _ => Except.ok true
  freshHistoryID := "hist-2"
  resourceSep := "/"

/-- Concrete environment whose controller cannot report a node version. -/
def envErr : Env where
  taskType := "upgrade"
  taskName := "job3"
  concurrency := 1
  timeOutSeconds := 2
  failureTolerate := 0
  checkItem := []
  msg := ⟨"", "", "", "v1.17.0", "img"⟩
  stageCompleted := fun _ s => s = "Completed"
  taskFinish := fun s => s = "Successful"
  reportTaskStatus := fun _ _ => Except.ok "Successful"
  getNodeVersion := fun _ => Except.error "node version unavailable"
  versionLess := fun _ _ => Except.ok true
  freshHistoryID := "hist-3"
  resourceSep := "/"

theorem jobsInsert_length_le : ∀ (l : List (String × Nat)) (k : String) (v : Nat),
    (jobsInsert l k v).length ≤ l.length + 1
  | [], k, v => by simp [jobsInsert]
  | (a, b) :: rest, k, v => by
    by_cases h : a = k
    · simp [jobsInsert, h]
    · simp only [jobsInsert, if_neg h, List.length_cons]
      have := jobsInsert_length_le rest k v
      omega

theorem jobsErase_length_le : ∀ (l : List (String × Nat)) (k : String),
    (jobsErase l k).length ≤ l.length
  | [], k => by simp [jobsErase]
  | (a, b) :: rest, k => by
    by_cases h : a = k
    · simp [jobsErase, h]
    · simp only [jobsErase, if_neg h, List.length_cons]
      have := jobsErase_length_le rest k
      omega

theorem runOps_bounded (env : Env) (ops : List PoolOp) :
    ∀ w : Workers, w.jobs.length ≤ w.number →
      (runOps env w ops).jobs.length ≤ (runOps env w ops).number
      ∧ (runOps env w ops).number = w.number := by
  induction ops with
  | nil => intro w hw; exact ⟨hw, rfl⟩
  | cons op rest ih =>
    intro w hw
    cases op with
    | add node i =>
      by_cases hs : w.shuttingDown
      · simpa [runOps, addJob, hs] using ih w hw
      · by_cases hn : w.number ≤ w.jobs.length
        · simpa [runOps, addJob, hs, hn] using ih w hw
        · have hlt : w.jobs.length < w.number := lt_of_not_le hn
          have hins := jobsInsert_length_le w.jobs node.nodeName i
          have : (jobsInsert w.jobs node.nodeName i).length ≤ w.number := by omega
          simpa [runOps, addJob, hs, hn] using
            ih { w with jobs := jobsInsert w.jobs node.nodeName i } this
    | fin name =>
      cases hl : jobsLookup w.jobs name with
      | none => simpa [runOps, Workers.endJob, hl] using ih w hw
      | some idx =>
        have hera := jobsErase_length_le w.jobs name
        have : (jobsErase w.jobs name).length ≤ w.number := le_trans hera hw
        simpa [runOps, Workers.endJob, hl] using
          ih { w with jobs := jobsErase w.jobs name } this

/-- C4: starting from an empty pool of capacity c, any sequence of addJob and
endJob operations keeps the number of in-flight jobs at most c; addJob only
inserts strictly below capacity and never inserts once the shutting-down flag
is set. -/
theorem C4_bounded_concurrency (env env2 : Env) (c : Nat) (ops : List PoolOp)
    (w : Workers) (node : TaskStatus) (i : Nat) :
    (runOps env ⟨c, [], false⟩ ops).jobs.length ≤ c
    ∧ (w.shuttingDown = true → ∃ e, addJob env2 w node i = Except.error e)
    ∧ (w.shuttingDown = false → w.number ≤ w.jobs.length →
        ∃ e, addJob env2 w node i = Except.error e) := by
  refine ⟨?_, ?_, ?_⟩
  · have h := runOps_bounded env ops ⟨c, [], false⟩ (by simp)
    have h1 := h.1
    have h2 := h.2
    simp only [h2] at h1
    exact h1
  · intro hs; exact ⟨"workers is stopped", by simp [addJob, hs]⟩
  · intro hs hn
    exact ⟨"workers are all running, " ++ toString w.jobs.length ++ "/" ++
      toString w.number, by simp [addJob, hs, hn]⟩

/-- Witness for C4 at a concrete input: two admissions into a capacity-1 pool
leave at most one in-flight job, and a shutting-down pool refuses admission. -/
theorem C4_witness :
    (runOps envA ⟨1, [], false⟩ [.add nodeA 0, .add nodeFailedB 1]).jobs.length ≤ 1
    ∧ ∃ e, addJob envA ⟨1, [], true⟩ nodeA 0 = Except.error e :=
  ⟨(C4_bounded_concurrency envA envA 1 [.add nodeA 0, .add nodeFailedB 1]
      ⟨1, [], true⟩ nodeA 0).1,
   (C4_bounded_concurrency envA envA 1 [.add nodeA 0, .add nodeFailedB 1]
      ⟨1, [], true⟩ nodeA 0).2.1 rfl⟩

/-- C5: addJob fails exactly when the pool is shutting down (the stopped
error) or the in-flight count has reached capacity (the full error), and
otherwise inserts the node-to-index mapping; endJob returns and removes the
stored index, failing exactly when the name is not in flight. -/
theorem C5_addJob_endJob (env : Env) (w : Workers) (node : TaskStatus)
    (i : Nat) (name : String) :
    ((∃ e, addJob env w node i = Except.error e) ↔
        (w.shuttingDown = true ∨ w.number ≤ w.jobs.length))
    ∧ (w.shuttingDown = true → addJob env w node i = Except.error "workers is stopped")
    ∧ (w.shuttingDown = false → w.number ≤ w.jobs.length →
        addJob env w node i = Except.error
          ("workers are all running, " ++ toString w.jobs.length ++ "/" ++
            toString w.number))
    ∧ (w.shuttingDown = false → w.jobs.length < w.number →
        addJob env w node i =
          Except.ok ({ w with jobs := jobsInsert w.jobs node.nodeName i },
            initMessage env node))
    ∧ (jobsLookup w.jobs name = none →
        w.endJob name = Except.error ("end job " ++ name ++ " error, job not exist"))
    ∧ (∀ idx, jobsLookup w.jobs name = some idx →
        w.endJob name = Except.ok (idx, { w with jobs := jobsErase w.jobs name })) := by
  refine ⟨?_, ?_, ?_, ?_, ?_, ?_⟩
  · constructor
    · rintro ⟨e, he⟩
      by_cases hs : w.shuttingDown
      · exact Or.inl hs
      · by_cases hn : w.number ≤ w.jobs.length
        · exact Or.inr hn
        · simp [addJob, hs, hn] at he
    · rintro (hs | hn)
      · exact ⟨"workers is stopped", by simp [addJob, hs]⟩
      · by_cases hs : w.shuttingDown
        · exact ⟨"workers is stopped", by simp [addJob, hs]⟩
        · exact ⟨"workers are all running, " ++ toString w.jobs.length ++ "/" ++
            toString w.number, by simp [addJob, hs, hn]⟩
  · intro hs; simp [addJob, hs]
  · intro hs hn; simp [addJob, hs, hn]
  · intro hs hn; simp [addJob, hs, not_le.mpr hn]
  · intro h; simp [Workers.endJob, h]
  · intro idx h; simp [Workers.endJob, h]

/-- Witness for C5 at a concrete input: a full capacity-1 pool refuses nodeA
with the full error, and ending an in-flight job returns its index and
removes it. -/
theorem C5_witness :
    addJob envA ⟨1, [("nodeB", 0)], false⟩ nodeA 1 =
      Except.error ("workers are all running, " ++ toString (1 : Nat) ++ "/" ++
        toString (1 : Nat))
    ∧ Workers.endJob ⟨1, [("nodeB", 0)], false⟩ "nodeB" =
        Except.ok (0, ⟨1, [], false⟩) :=
  ⟨(C5_addJob_endJob envA ⟨1, [("nodeB", 0)], false⟩ nodeA 1 "nodeB").2.2.1 rfl
      (by simp),
   (C5_addJob_endJob envA ⟨1, [("nodeB", 0)], false⟩ nodeA 1 "nodeB").2.2.2.2.2 0
      (by simp [jobsLookup])⟩

theorem initWorkerGo_spec (env : Env) (n : Nat) :
    ∀ (l : List TaskStatus) (li : Nat) (st : DealState) (msgs : List Message),
    (match initWorkerGo env n l (li + 1) li st msgs with
     | (index, isEndNode, st1, m, err) =>
         (⟨if isEndNode then index + 1 else index, st1, m, err⟩ : InitWorkerResult))
      = initWorkerSpec env n l (li + 1) st msgs := by
  intro l
  induction l with
  | nil => intro li st msgs; rfl
  | cons node rest ih =>
    intro li st msgs
    by_cases hc : env.stageCompleted env.taskName node.state = true
    · cases hre : (dealCompletedNode env n st node).err with
      | some e => simp [initWorkerGo, initWorkerSpec, hc, hre]
      | none =>
          simp only [initWorkerGo, initWorkerSpec, hc, if_true, hre]
          exact ih (li + 1) _ msgs
    · cases ha : addJob env st.worker node (li + 1) with
      | error e => simp [initWorkerGo, initWorkerSpec, hc, ha]
      | ok p =>
          obtain ⟨w, m⟩ := p
          simp only [initWorkerGo, initWorkerSpec, hc, ha, Bool.false_eq_true,
            if_false]
          exact ih (li + 1) ⟨st.failedNodes, w⟩ (msgs ++ [m])

/-- C3: for every non-empty node list, initWorker scans from position 0,
routes already-stage-completed nodes through the completion handler without
admitting them, admits the rest until an admission fails, and returns as
cursor the position of the first non-admitted node — the list length when the
whole slice was consumed without an admission failure: it coincides with the
specification-level scan initWorkerSpec started at position 0. -/
theorem C3_initWorker_cursor (env : Env) (n : Nat) (nodes : List TaskStatus)
    (st : DealState) (h : nodes ≠ []) :
    initWorker env n nodes st = initWorkerSpec env n nodes 0 st [] := by
  cases nodes with
  | nil => exact absurd rfl h
  | cons node rest =>
    by_cases hc : env.stageCompleted env.taskName node.state = true
    · cases hre : (dealCompletedNode env n st node).err with
      | some e => simp [initWorker, initWorkerGo, initWorkerSpec, hc, hre]
      | none =>
          have hlem := initWorkerGo_spec env n rest 0
            ((dealCompletedNode env n st node).state) []
          simp only [initWorker, initWorkerGo, initWorkerSpec, hc, if_true, hre]
          simpa using hlem
    · cases ha : addJob env st.worker node 0 with
      | error e => simp [initWorker, initWorkerGo, initWorkerSpec, hc, ha]
      | ok p =>
          obtain ⟨w, m⟩ := p
          have hlem := initWorkerGo_spec env n rest 0 ⟨st.failedNodes, w⟩ ([] ++ [m])
          simp only [initWorker, initWorkerGo, initWorkerSpec, hc, ha,
            Bool.false_eq_true, if_false]
          simpa using hlem

/-- Witness for C3 at a concrete input: a singleton pending node list. -/
theorem C3_witness :
    initWorker envA 1 [nodeA] ⟨[], ⟨2, [], false⟩⟩ =
      initWorkerSpec envA 1 [nodeA] 0 ⟨[], ⟨2, [], false⟩⟩ [] :=
  C3_initWorker_cursor envA 1 [nodeA] ⟨[], ⟨2, [], false⟩⟩ (by simp)

/-- C1 counterexample: with 3 nodes and failureTolerate 1/2 the claim's
threshold floor(3 * 1/2) is 1, so on the first distinct failed node the claim
requires the pool to be shut down and, with no jobs in flight, the task
failure to be reported; the completion handler instead compares the failed
count against the unfloored product 3/2, returns normally, leaves the
shutting-down flag unset and reports nothing. -/
theorem C1_counterexample :
    (⌊(3 : ℚ) * envA.failureTolerate⌋ ≤ (1 : ℤ))
    ∧ (dealCompletedNode envA 3 ⟨[], ⟨2, [], false⟩⟩ nodeFailedB).state.failedNodes
        = ["nodeB"]
    ∧ (dealCompletedNode envA 3 ⟨[], ⟨2, [], false⟩⟩
        nodeFailedB).state.worker.shuttingDown = false
    ∧ (dealCompletedNode envA 3 ⟨[], ⟨2, [], false⟩⟩ nodeFailedB).reported = none
    ∧ (dealCompletedNode envA 3 ⟨[], ⟨2, [], false⟩⟩ nodeFailedB).err = none := by
  have hft : envA.failureTolerate = 1 / 2 := rfl
  have hfloor : ⌊(3 : ℚ) * ((1 : ℚ) / 2)⌋ = 1 := by norm_num [Int.floor_eq_iff]
  have hlt : ((1 : ℚ) : ℚ) < (3 : ℚ) * envA.failureTolerate := by
    rw [hft]; norm_num
  refine ⟨by rw [hft, hfloor], ?_, ?_, ?_, ?_⟩ <;>
    simp [dealCompletedNode, failedAfter, nodeFailedB, TaskFailed, setInsert, hlt]

/-- C1 amended: the completion handler returns normally exactly while the
number of distinct failed nodes stays strictly below nodes * failureTolerate
taken as an exact unfloored product; starting from a pool not yet shutting
down it sets the shutting-down flag iff that product is reached, and it
aborts — reporting task failure with an error message giving the
failed/total ratio and returning an error — iff the product is reached with
no jobs in flight. -/
theorem C1_tolerance_threshold (env : Env) (n : Nat) (st : DealState)
    (node : TaskStatus) (hsd : st.worker.shuttingDown = false) :
    ((dealCompletedNode env n st node).state.worker.shuttingDown = true ↔
        (n : ℚ) * env.failureTolerate ≤ ((failedAfter st node).length : ℚ))
    ∧ (dealCompletedNode env n st node).state.failedNodes = failedAfter st node
    ∧ (dealCompletedNode env n st node).reported =
        (if (n : ℚ) * env.failureTolerate ≤ ((failedAfter st node).length : ℚ)
            ∧ st.worker.jobs = []
         then some ⟨node.event, node.action,
                toleranceErrMsg (failedAfter st node).length n⟩
         else none)
    ∧ ((dealCompletedNode env n st node).err = none ↔
        (dealCompletedNode env n st node).reported = none)
    ∧ (((failedAfter st node).length : ℚ) < (n : ℚ) * env.failureTolerate →
        dealCompletedNode env n st node = ⟨⟨failedAfter st node, st.worker⟩, none, none⟩) := by
  by_cases hq : ((failedAfter st node).length : ℚ) < (n : ℚ) * env.failureTolerate
  · have hq' : ¬ (n : ℚ) * env.failureTolerate ≤ ((failedAfter st node).length : ℚ) :=
      not_le.mpr hq
    refine ⟨?_, ?_, ?_, ?_, fun _ => ?_⟩ <;>
      simp [dealCompletedNode, hq, hsd, hq']
  · have hq' : (n : ℚ) * env.failureTolerate ≤ ((failedAfter st node).length : ℚ) :=
      not_lt.mp hq
    by_cases hj : st.worker.jobs = []
    · cases hrep : env.reportTaskStatus env.taskName
        ⟨node.event, node.action, toleranceErrMsg (failedAfter st node).length n⟩ with
      | error e =>
          refine ⟨?_, ?_, ?_, ?_, fun hlt => absurd hlt hq⟩ <;>
            simp [dealCompletedNode, hq, hq', hj, hrep]
      | ok v =>
          refine ⟨?_, ?_, ?_, ?_, fun hlt => absurd hlt hq⟩ <;>
            simp [dealCompletedNode, hq, hq', hj, hrep]
    · have hj' : 0 < st.worker.jobs.length := List.length_pos.mpr hj
      refine ⟨?_, ?_, ?_, ?_, fun hlt => absurd hlt hq⟩ <;>
        simp [dealCompletedNode, hq, hq', hj, hj']

/-- Witness for C1 at a concrete input: two nodes, tolerance one half, first
failure reaches the product threshold and the drained pool is shut down. -/
theorem C1_witness :
    (dealCompletedNode envA 2 ⟨[], ⟨2, [], false⟩⟩
        nodeFailedB).state.worker.shuttingDown = true ↔
      (2 : ℚ) * envA.failureTolerate ≤
        ((failedAfter ⟨[], ⟨2, [], false⟩⟩ nodeFailedB).length : ℚ) :=
  (C1_tolerance_threshold envA 2 ⟨[], ⟨2, [], false⟩⟩ nodeFailedB rfl).1

/-- C8: a nil report, a structurally empty report, a report whose state does
not satisfy the stage-completion predicate, and a report naming a node that
is not in flight leave the scheduling-loop state — node slice, cursor,
failed-node set and worker pool — unchanged, and no message is emitted. -/
theorem C8_ignored_reports (env : Env) (s : ExecState) (r : Option TaskStatus)
    (h : r = none
      ∨ ∃ st, r = some st ∧ (st = TaskStatus.empty
          ∨ env.stageCompleted env.taskName st.state = false
          ∨ jobsLookup s.worker.jobs st.nodeName = none)) :
    handleStatus env s r = (s, []) := by
  rcases h with h | ⟨st, hr, hcase⟩
  · rw [h]; rfl
  · subst hr
    by_cases he : st = TaskStatus.empty
    · simp [handleStatus, he]
    · rcases hcase with he' | hsc | hnf
      · exact absurd he' he
      · simp [handleStatus, he, hsc]
      · by_cases hsc : env.stageCompleted env.taskName st.state = false
        · simp [handleStatus, he, hsc]
        · have hsc' : env.stageCompleted env.taskName st.state = true := by
            cases hb : env.stageCompleted env.taskName st.state
            · exact absurd hb hsc
            · rfl
          simp [handleStatus, he, hsc', Workers.endJob, hnf]

/-- Witness for C8 at a concrete input: a report for a node that is not in
flight is ignored. -/
theorem C8_witness :
    handleStatus envA ⟨[nodeA], 1, [], ⟨2, [], false⟩, false⟩ (some nodeFailedB) =
      (⟨[nodeA], 1, [], ⟨2, [], false⟩, false⟩, []) :=
  C8_ignored_reports envA ⟨[nodeA], 1, [], ⟨2, [], false⟩, false⟩ (some nodeFailedB)
    (Or.inr ⟨nodeFailedB, rfl, Or.inr (Or.inr (by simp [jobsLookup]))⟩)

theorem setInsert_mem (l : List String) (x y : String) (h : x ∈ l) :
    x ∈ setInsert l y := by
  unfold setInsert
  split
  · exact h
  · exact List.mem_append_left _ h

theorem setInsert_of_mem (l : List String) (y : String) (h : y ∈ l) :
    setInsert l y = l := by
  simp [setInsert, h]

theorem dealCompletedNode_failedNodes (env : Env) (n : Nat) (st : DealState)
    (node : TaskStatus) :
    (dealCompletedNode env n st node).state.failedNodes = failedAfter st node := by
  simp only [dealCompletedNode]
  split
  · rfl
  · split
    · rfl
    · split <;> rfl

theorem failedAfter_mem (st : DealState) (node : TaskStatus) (x : String)
    (h : x ∈ st.failedNodes) : x ∈ failedAfter st node := by
  unfold failedAfter
  split
  · exact setInsert_mem _ _ _ h
  · exact h

theorem dealCompletedNode_mem (env : Env) (n : Nat) (st : DealState)
    (node : TaskStatus) (x : String) (h : x ∈ st.failedNodes) :
    x ∈ (dealCompletedNode env n st node).state.failedNodes := by
  rw [dealCompletedNode_failedNodes]
  exact failedAfter_mem st node x h

theorem initWorkerGo_failed_mono (env : Env) (n : Nat) :
    ∀ (l : List TaskStatus) (i li : Nat) (st : DealState) (msgs : List Message)
      (x : String), x ∈ st.failedNodes →
      x ∈ (initWorkerGo env n l i li st msgs).2.2.1.failedNodes := by
  intro l
  induction l with
  | nil => intro i li st msgs x hx; simpa [initWorkerGo] using hx
  | cons node rest ih =>
    intro i li st msgs x hx
    have hx1 := dealCompletedNode_mem env n st node x hx
    by_cases hc : env.stageCompleted env.taskName node.state = true
    · cases hre : (dealCompletedNode env n st node).err with
      | some e => simpa [initWorkerGo, hc, hre] using hx1
      | none =>
          simp only [initWorkerGo, hc, if_true, hre]
          exact ih _ _ _ _ x hx1
    · cases ha : addJob env st.worker node i with
      | error e => simpa [initWorkerGo, hc, ha] using hx
      | ok p =>
          obtain ⟨w, m⟩ := p
          simp only [initWorkerGo, hc, ha, Bool.false_eq_true, if_false]
          exact ih _ _ ⟨st.failedNodes, w⟩ _ x hx

theorem initWorker_failed_mono (env : Env) (n : Nat) (nodes : List TaskStatus)
    (st : DealState) (x : String) (hx : x ∈ st.failedNodes) :
    x ∈ (initWorker env n nodes st).state.failedNodes := by
  have h := initWorkerGo_failed_mono env n nodes 0 0 st [] x hx
  rcases hgo : initWorkerGo env n nodes 0 0 st [] with ⟨idx, isEnd, st1, msgs2, err⟩
  rw [hgo] at h
  rw [initWorker, hgo]
  simpa using h

theorem handleStatus_failed_mono (env : Env) (s : ExecState)
    (r : Option TaskStatus) (x : String) (hx : x ∈ s.failedNodes) :
    x ∈ (handleStatus env s r).1.failedNodes := by
  cases r with
  | none => simpa [handleStatus] using hx
  | some status =>
    by_cases he : status = TaskStatus.empty
    · simpa [handleStatus, he] using hx
    · by_cases hsc : env.stageCompleted env.taskName status.state = false
      · simpa [handleStatus, he, hsc] using hx
      · have hsc' : env.stageCompleted env.taskName status.state = true := by
          cases hb : env.stageCompleted env.taskName status.state
          · exact absurd hb hsc
          · rfl
        cases hej : s.worker.endJob status.nodeName with
        | error e => simpa [handleStatus, he, hsc', hej] using hx
        | ok p =>
          obtain ⟨endNode, worker⟩ := p
          have hx1 := dealCompletedNode_mem env s.nodes.length
            ⟨s.failedNodes, worker⟩ status x hx
          simp only [handleStatus, he, hsc', hej, List.length_set,
            Bool.true_eq_false, if_false]
          split
          · simpa using hx1
          · split
            · split
              · simpa using hx1
              · split
                · simpa using hx1
                · split
                  · simpa using hx1
                  · exact initWorker_failed_mono env _ _ _ x hx1
            · split
              · simpa using hx1
              · simpa using hx1

/-- C9: the failed-node set only grows across scheduling-loop iterations,
including stage boundaries (the next-stage sweep threads the same set), so
failures accumulate over the whole task rather than per stage; and a node
already recorded as failed is not counted again. -/
theorem C9_failed_set_monotone (env : Env) (s : ExecState)
    (r : Option TaskStatus) (x : String) (l : List String) (y : String) :
    (x ∈ s.failedNodes → x ∈ (handleStatus env s r).1.failedNodes)
    ∧ (y ∈ l → setInsert l y = l) :=
  ⟨handleStatus_failed_mono env s r x, setInsert_of_mem l y⟩

/-- Witness for C9 at a concrete input: a recorded failure survives the next
iteration, and re-inserting it changes nothing. -/
theorem C9_witness :
    ("nodeB" ∈ (handleStatus envA ⟨[nodeA], 1, ["nodeB"], ⟨2, [], false⟩, false⟩
        none).1.failedNodes)
    ∧ setInsert ["nodeB"] "nodeB" = ["nodeB"] :=
  ⟨(C9_failed_set_monotone envA ⟨[nodeA], 1, ["nodeB"], ⟨2, [], false⟩, false⟩
      none "nodeB" ["nodeB"] "nodeB").1 (by simp),
   (C9_failed_set_monotone envA ⟨[nodeA], 1, ["nodeB"], ⟨2, [], false⟩, false⟩
      none "nodeB" ["nodeB"] "nodeB").2 (by simp)⟩

/-- C6: over the trace of states it observes, the watcher reports nothing
iff some poll within timeoutSeconds sees a state different from the starting
one or a task-terminal state; and its only possible report is the single
TimeOut Failure event — it returns an event and touches neither the worker
pool nor the node slice. -/
theorem C6_timeout_watcher (env : Env) (index : Nat) (nodes : List TaskStatus)
    (obs : Nat → String) :
    (handelTimeOutJob env index nodes obs = none ↔
      ∃ i, i < env.timeOutSeconds ∧
        ((nodes.getD index TaskStatus.empty).state ≠ obs i
          ∨ env.taskFinish (obs i) = true))
    ∧ (handelTimeOutJob env index nodes obs = none
        ∨ handelTimeOutJob env index nodes obs =
            some ⟨"TimeOut", ActionFailure,
              "node task execution timeout, timed out waiting for the condition"⟩) := by
  have hiff : ((List.range env.timeOutSeconds).any
      (fun i => decide ((nodes.getD index TaskStatus.empty).state ≠ obs i)
        || env.taskFinish (obs i)) = true)
      ↔ ∃ i, i < env.timeOutSeconds ∧
          ((nodes.getD index TaskStatus.empty).state ≠ obs i
            ∨ env.taskFinish (obs i) = true) := by
    simp [List.any_eq_true, List.mem_range]
  constructor
  · simp only [handelTimeOutJob]
    split
    · next hb => exact iff_of_true rfl (hiff.mp hb)
    · next hb =>
        refine iff_of_false (by simp) fun hex => hb (hiff.mpr hex)
  · simp only [handelTimeOutJob]
    split
    · exact Or.inl rfl
    · exact Or.inr rfl

/-- C7: for an upgrade task on a node whose controller-reported version is
strictly below "v1.16.0", the emitted command is the legacy message (legacy
router module, upgrade-tagged resource key, body with upgradeID the task
name, the freshly drawn history id, tool keadm and the payload's version and
image); in every other case — different task type, version lookup error,
comparison error or version not below the cutoff — it is the current-format
message with body taskID/type/state/item under the task-type resource key,
the item being the pre-check request enumerating checkItem when the node is
in the pre-check state and the task payload otherwise. -/
theorem C7_node_command_format (env : Env) (node : TaskStatus) (v : String) :
    (env.taskType = TaskUpgrade →
      env.getNodeVersion node.nodeName = Except.ok v →
      env.versionLess v "v1.16.0" = Except.ok true →
      initMessage env node =
        { source := NodeUpgradeJobControllerModuleName
          group := NodeUpgradeJobControllerModuleGroup
          resource := String.intercalate env.resourceSep
            [TaskUpgrade, env.taskName, "node", node.nodeName]
          operation := TaskUpgrade
          body := .upgrade ⟨env.taskName, env.freshHistoryID, "keadm",
            env.msg.version, env.msg.image⟩ })
    ∧ (env.taskType ≠ TaskUpgrade → initMessage env node = currentFormatMessage env node)
    ∧ ((∃ e, env.getNodeVersion node.nodeName = Except.error e) →
        initMessage env node = currentFormatMessage env node)
    ∧ (env.getNodeVersion node.nodeName = Except.ok v →
        (∃ e, env.versionLess v "v1.16.0" = Except.error e) →
        initMessage env node = currentFormatMessage env node)
    ∧ (env.getNodeVersion node.nodeName = Except.ok v →
        env.versionLess v "v1.16.0" = Except.ok false →
        initMessage env node = currentFormatMessage env node)
    ∧ currentFormatMessage env node =
        { source := TaskManagerModuleName
          group := TaskManagerModuleGroup
          resource := String.intercalate env.resourceSep
            [env.taskType, env.taskName, "node", node.nodeName]
          operation := TaskUpgrade
          body := .task
            { taskID := env.taskName
              type := env.taskType
              state := node.state
              item := if node.state = TaskChecking then .preCheck env.checkItem
                      else .payload env.msg } } := by
  refine ⟨?_, ?_, ?_, ?_, ?_, ?_⟩
  · intro ht hv hl
    simp [initMessage, initHistoryMessage, ht, hv, hl, buildUpgradeResource]
  · intro ht
    simp [initMessage, currentFormatMessage, ht, buildTaskResource]
  · rintro ⟨e, he⟩
    by_cases ht : env.taskType = TaskUpgrade <;>
      simp [initMessage, currentFormatMessage, initHistoryMessage, ht, he,
        buildTaskResource]
  · rintro hv ⟨e, he⟩
    by_cases ht : env.taskType = TaskUpgrade <;>
      simp [initMessage, currentFormatMessage, initHistoryMessage, ht, hv, he,
        buildTaskResource]
  · intro hv hl
    by_cases ht : env.taskType = TaskUpgrade <;>
      simp [initMessage, currentFormatMessage, initHistoryMessage, ht, hv, hl,
        buildTaskResource]
  · simp [currentFormatMessage, buildTaskResource]

/-- Witness for C7 at a concrete input: an upgrade task whose node reports
version "v1.15.0", below the cutoff, receives the legacy message. -/
theorem C7_witness :
    initMessage envOld nodeA =
      { source := NodeUpgradeJobControllerModuleName
        group := NodeUpgradeJobControllerModuleGroup
        resource := String.intercalate envOld.resourceSep
          [TaskUpgrade, envOld.taskName, "node", nodeA.nodeName]
        operation := TaskUpgrade
        body := .upgrade ⟨envOld.taskName, envOld.freshHistoryID, "keadm",
          envOld.msg.version, envOld.msg.image⟩ } :=
  (C7_node_command_format envOld nodeA "v1.15.0").1 rfl rfl rfl

/-- C10: when the legacy path cannot decide — the controller fails to return
the node's version, or the version comparison errors — on an upgrade task,
the admission does not fail: addJob succeeds whenever the pool has room and
silently emits the current-format command for the node. -/
theorem C10_legacy_fallback (env : Env) (w : Workers) (node : TaskStatus)
    (i : Nat) (v : String)
    (hup : env.taskType = TaskUpgrade)
    (hfail : (∃ e, env.getNodeVersion node.nodeName = Except.error e)
      ∨ (env.getNodeVersion node.nodeName = Except.ok v
          ∧ ∃ e, env.versionLess v "v1.16.0" = Except.error e))
    (hsd : w.shuttingDown = false) (hroom : w.jobs.length < w.number) :
    addJob env w node i =
      Except.ok ({ w with jobs := jobsInsert w.jobs node.nodeName i },
        currentFormatMessage env node) := by
  rcases hfail with ⟨e, he⟩ | ⟨hv, e, he⟩
  · simp [addJob, hsd, not_le.mpr hroom, initMessage, currentFormatMessage,
      initHistoryMessage, hup, he]
  · simp [addJob, hsd, not_le.mpr hroom, initMessage, currentFormatMessage,
      initHistoryMessage, hup, hv, he]

/-- Witness for C10 at a concrete input: a version lookup failure on an
upgrade task still admits the node with the current-format command. -/
theorem C10_witness :
    addJob envErr ⟨1, [], false⟩ nodeA 0 =
      Except.ok (⟨1, [("nodeA", 0)], false⟩, currentFormatMessage envErr nodeA) := by
  have h := C10_legacy_fallback envErr ⟨1, [], false⟩ nodeA 0 ""
    rfl (Or.inl ⟨"node version unavailable", rfl⟩) rfl (by decide)
  simpa [jobsInsert, nodeA] using h

/-- C2: a zero concurrency is normalized to an effective in-flight capacity
of 1 and a zero timeout to a per-node deadline of 300 seconds; with the
effective capacity the executor still admits one node at a time rather than
none — an admission into the empty pool succeeds and the following admission
is refused until a completion frees the slot. -/
theorem C2_zero_defaults (env : Env) (node : TaskStatus) (i j : Nat)
    (m : String) :
    effectiveConcurrency 0 = 1
    ∧ effectiveTimeoutSeconds 0 = 300
    ∧ addJob env ⟨effectiveConcurrency 0, [], false⟩ node i =
        Except.ok (⟨1, [(node.nodeName, i)], false⟩, initMessage env node)
    ∧ addJob env ⟨effectiveConcurrency 0, [(m, j)], false⟩ node i =
        Except.error ("workers are all running, " ++ toString (1 : Nat) ++ "/" ++
          toString (1 : Nat)) := by
  refine ⟨rfl, rfl, ?_, ?_⟩
  · simp [addJob, effectiveConcurrency, jobsInsert]
  · simp [addJob, effectiveConcurrency]

end TaskManager
